import Mathlib

/-!
# Verification of `govuk_checker.py`

Shallow embedding of the GOV.UK style/content checker.  The repository has two
source files: `govuk_checker.py` (the rule evaluator `check_html` / `check_docx`
and the CLI `main`) and `govuk_checker_app.py` (an interactive front end, out of
scope for the claims below).

Modelling conventions:

* Markup / word-processor parsing is an external collaborator (spec §1), so the
  parsed document is embedded as a record of the values the evaluator actually
  reads from the parser: the extracted text (`soup.get_text(separator="\n")`),
  the `li` texts, the `find_previous(string=True)` result for each `ul`, the
  anchor texts, the image `alt` attributes, and so on.
* Python strings are `String` / `List Char`; the regular expressions used by
  the source are translated into explicit character scanners with the same
  semantics (word boundaries, case-insensitivity, greedy repetition).  The
  character classes are modelled at ASCII precision (plus the typographic
  apostrophe U+2019, which is neither a word character nor whitespace, exactly
  as in the Python `re` module); every concrete input used below is ASCII except for
  that apostrophe.
* The only statement in the evaluator that can raise is
  `bp.strip()[0]` (line 23), so `check_html` returns `Except PyErr`; all other
  checks are total.
-/

set_option autoImplicit false

/-- Python whitespace at ASCII precision: the characters matched by `str.strip`,
`str.split` and the regex class `\s` on ASCII input. -/
def isPySpace (c : Char) : Bool :=
  c == ' ' || c == '\t' || c == '\n' || c == '\r' || c == '\x0b' || c == '\x0c'

/-- Regex word character `\w` at ASCII precision: `[A-Za-z0-9_]`. -/
def isWordChar (c : Char) : Bool :=
  c.isAlphanum || c == '_'

/-- Python `str.isupper` on a single character, at ASCII precision: true exactly for
`A`-`Z` (digits and punctuation are not upper-case in Python either). -/
def isAsciiUpper (c : Char) : Bool :=
  'A' ≤ c && c ≤ 'Z'

/-- Python `str.strip()`: drop leading and trailing whitespace. -/
def pystrip (l : List Char) : List Char :=
  ((l.dropWhile isPySpace).reverse.dropWhile isPySpace).reverse

/-- Helper for `pysplitWs`; `cur` is the current word, reversed. -/
def pysplitAux (cur : List Char) : List Char → List (List Char)
  | [] => if cur.isEmpty then [] else [cur.reverse]
  | c :: rest =>
    if isPySpace c then
      if cur.isEmpty then pysplitAux [] rest else cur.reverse :: pysplitAux [] rest
    else pysplitAux (c :: cur) rest

/-- Python `str.split()` with no argument: split on whitespace runs, dropping
empty pieces. -/
def pysplitWs (l : List Char) : List (List Char) :=
  pysplitAux [] l

/-- Test `s.endswith(c)` for a single-character suffix. -/
def endsWithChar (c : Char) (l : List Char) : Bool :=
  l.getLast? == some c

/-- A regex word boundary `\b` to the left of the current position, given the
previous character (`none` at the start of the string). -/
def atBoundary : Option Char → Bool
  | none => true
  | some c => !isWordChar c

/-- A regex word boundary `\b` to the right of a match: the remaining input is
empty or starts with a non-word character. -/
def headNonWord : List Char → Bool
  | [] => true
  | c :: _ => !isWordChar c

/-- Case-insensitive literal prefix match (regex `re.IGNORECASE`): on success
returns the matched slice of the input (original case, as `re.findall`
reports it) and the remaining input. -/
def ciStrip : List Char → List Char → Option (List Char × List Char)
  | [], t => some ([], t)
  | _ :: _, [] => none
  | c :: w, d :: t =>
    if c.toLower == d.toLower then
      match ciStrip w t with
      | some (m, r) => some (d :: m, r)
      | none => none
    else none

/-- Case-sensitive literal prefix match, returning the remaining input. -/
def stripPrefixExact : List Char → List Char → Option (List Char)
  | [], t => some t
  | _ :: _, [] => none
  | c :: p, d :: t => if c == d then stripPrefixExact p t else none

/-- Try the alternatives of a pattern `\b(a1|a2|...)\b` at the current
position, in order, as the Python regex alternation does; `prev` is the
character before the position.  Returns the matched slice and the rest. -/
def firstAlt (alts : List (List Char)) (prev : Option Char) (t : List Char) :
    Option (List Char × List Char) :=
  match alts with
  | [] => none
  | a :: rest =>
    if atBoundary prev then
      match ciStrip a t with
      | some (m, r) => if headNonWord r then some (m, r) else firstAlt rest prev t
      | none => firstAlt rest prev t
    else none

/-- Generic left-to-right scan of `re.search`: try `hit` at every position,
tracking the previous character for boundary tests. -/
def scanAnyAux (hit : Option Char → List Char → Bool) : Option Char → List Char → Bool
  | prev, [] => hit prev []
  | prev, c :: rest => hit prev (c :: rest) || scanAnyAux hit (some c) rest

/-- Result of `re.search(pattern, t) is not None` for a pattern expressed as a
positional `hit` test. -/
def scanAny (hit : Option Char → List Char → Bool) (t : List Char) : Bool :=
  scanAnyAux hit none t

/-- Result of `re.search(r"\b(a1|a2|...)\b", t, re.IGNORECASE) is not None`. -/
def searchAlts (alts : List (List Char)) (t : List Char) : Bool :=
  scanAny (fun prev s => (firstAlt alts prev s).isSome) t

/-- Helper for `findAllAlts`.  `skip` counts characters still to be consumed
by the previous match (the Python scanner resumes after each match, and the
previous character is then the last character of the match). -/
def findAllAux (alts : List (List Char)) : Option Char → Nat → List Char → List (List Char)
  | _, _, [] => []
  | _, Nat.succ k, c :: rest => findAllAux alts (some c) k rest
  | prev, 0, c :: rest =>
    match firstAlt alts prev (c :: rest) with
    | some (m, _) => m :: findAllAux alts (some c) (m.length - 1) rest
    | none => findAllAux alts (some c) 0 rest

/-- Result of `re.findall(r"\b(?:a1|a2|...)\b", t, re.IGNORECASE)`: the non-overlapping
matches, left to right, in original case. -/
def findAllAlts (alts : List (List Char)) (t : List Char) : List (List Char) :=
  findAllAux alts none 0 t

/-- Python `needle in hay` for strings (substring containment). -/
def containsSub (needle : List Char) (hay : List Char) : Bool :=
  match hay with
  | [] => needle.isEmpty
  | c :: rest => needle.isPrefixOf (c :: rest) || containsSub needle rest

/-- The tail `" ([^)]+)"` of the acronym-expansion pattern: a space, an opening
parenthesis, at least one non-`)` character, and a closing parenthesis. -/
def parenExpTail : List Char → Bool
  | ' ' :: '(' :: c :: cs => (c != ')') && cs.contains ')'
  | _ => false

/-- One position of `re.search(rf"\b{acr} \([^)]+\)", t)` (case-sensitive, as
in the source). -/
def expansionHit (acr : List Char) (prev : Option Char) (t : List Char) : Bool :=
  atBoundary prev &&
    (match stripPrefixExact acr t with
     | some r => parenExpTail r
     | none => false)

/-- Result of `re.search(rf"\b{acr} \([^)]+\)", text) is not None` (line 71 / 126). -/
def expansionSearch (acr : List Char) (t : List Char) : Bool :=
  scanAny (expansionHit acr) t

/-- Helper for `wordRuns`; `cur` is the current run of word characters,
reversed. -/
def wordRunsAux (cur : List Char) : List Char → List (List Char)
  | [] => if cur.isEmpty then [] else [cur.reverse]
  | c :: rest =>
    if isWordChar c then wordRunsAux (c :: cur) rest
    else if cur.isEmpty then wordRunsAux [] rest
    else cur.reverse :: wordRunsAux [] rest

/-- The maximal runs of word characters of a string, in order. -/
def wordRuns (l : List Char) : List (List Char) :=
  wordRunsAux [] l

/-- Result of `re.findall(r"\b[A-Z]{2,}\b", t)` (line 69 / 124): a match is exactly a
maximal word-character run that is entirely `A`-`Z` and has length at least
2 (inside a longer mixed run no word boundary exists). -/
def acronymTokens (t : List Char) : List (List Char) :=
  (wordRuns t).filter (fun r => decide (2 ≤ r.length) && r.all isAsciiUpper)

/-- Helper for `dedupFirst`: keep elements not seen before. -/
def dedupFirstAux (seen : List (List Char)) : List (List Char) → List (List Char)
  | [] => []
  | x :: xs => if x ∈ seen then dedupFirstAux seen xs else x :: dedupFirstAux (x :: seen) xs

/-- Deduplication of the acronym list, keeping first occurrences.  The source
iterates over `set(acronyms)`: within one interpreter run that order is
deterministic but unspecified; no claim below depends on which order is
used, only on the multiset of emitted findings. -/
def dedupFirst (l : List (List Char)) : List (List Char) :=
  dedupFirstAux [] l

/-- Terminal sentence punctuation `[.!?]` used by the sentence splitter. -/
def isTermPunct : Option Char → Bool
  | some c => c == '.' || c == '!' || c == '?'
  | none => false

/-- Helper for `sentSplit`: `skipping` is true while consuming the `\s+` of a
split match; `acc` is the current piece, reversed. -/
def sentSplitAux (prev : Option Char) (skipping : Bool) (acc : List Char) :
    List Char → List (List Char)
  | [] => [acc.reverse]
  | c :: rest =>
    if skipping then
      if isPySpace c then sentSplitAux (some c) true [] rest
      else sentSplitAux (some c) false [c] rest
    else if isTermPunct prev && isPySpace c then
      acc.reverse :: sentSplitAux (some c) true [] rest
    else sentSplitAux (some c) false (c :: acc) rest

/-- Result of `re.split` on the pattern `(?<=[.!?])\s+` (line 42 / 114): split at each maximal
whitespace run directly preceded by `.`, `!` or `?`. -/
def sentSplit (t : List Char) : List (List Char) :=
  sentSplitAux none false [] t

/-- The fixed negative-contraction forms of line 34 / 106, all spelled with the
typographic right single quote U+2019 exactly as in the source. -/
def negContractions : List String :=
  ["don’t", "doesn’t", "didn’t", "can’t", "won’t", "wouldn’t", "shouldn’t",
   "couldn’t", "isn’t", "aren’t", "wasn’t", "weren’t", "haven’t", "hasn’t",
   "hadn’t", "mustn’t", "mightn’t", "needn’t"]

def negContrAlts : List (List Char) :=
  negContractions.map (fun s => s.data)

/-- Result of `re.findall` of the negative-contraction pattern over the extracted text. -/
def negContrFindall (t : List Char) : List (List Char) :=
  findAllAlts negContrAlts t

/-- The fixed active-verb alternation of lines 51 and 85. -/
def activeVerbList : List String :=
  ["work", "read", "learn", "report", "check", "view", "explore", "download",
   "submit", "apply", "contact", "visit"]

def activeVerbAlts : List (List Char) :=
  activeVerbList.map (fun s => s.data)

/-- Result of `re.search(r"\b(work|...|visit)\b", t, re.IGNORECASE) is not None`. -/
def hasActiveVerb (t : List Char) : Bool :=
  searchAlts activeVerbAlts t

/-- Result of `re.search(r"\bplease\b", text, re.IGNORECASE) is not None` (line 31). -/
def pleaseFound (t : List Char) : Bool :=
  searchAlts [("please").data] t

/-- Result of `re.search(rf"\b{word}\b", text, re.IGNORECASE) is not None` (line 39). -/
def wordFoundCI (w : String) (t : List Char) : Bool :=
  searchAlts [w.data] t

/-- The month-name alternation of the date pattern (line 74 / 129). -/
def monthNames : List String :=
  ["January", "February", "March", "April", "May", "June", "July", "August",
   "September", "October", "November", "December"]

def monthAlts : List (List Char) :=
  monthNames.map (fun s => s.data)

/-- Exactly four digits followed by a word boundary (`\d{4}\b`). -/
def fourDigitsBound : List Char → Bool
  | a :: b :: c :: d :: r =>
    a.isDigit && b.isDigit && c.isDigit && d.isDigit && headNonWord r
  | _ => false

/-- The `" (January|...|December) \d{4}\b"` tail of the date pattern, applied
after the day digits. -/
def dateTailAfterDay : List Char → Bool
  | ' ' :: r =>
    monthAlts.any (fun m =>
      match stripPrefixExact m r with
      | some r2 =>
        (match r2 with
         | ' ' :: r3 => fourDigitsBound r3
         | _ => false)
      | none => false)
  | _ => false

/-- One position of the date pattern `\b\d{1,2} (Month) \d{4}\b`; `\d{1,2}` is
greedy but both lengths are tried. -/
def dateHit (prev : Option Char) (t : List Char) : Bool :=
  atBoundary prev &&
    (match t with
     | d1 :: rest =>
       d1.isDigit &&
         ((match rest with
           | d2 :: rest2 => d2.isDigit && dateTailAfterDay rest2
           | [] => false) ||
          dateTailAfterDay rest)
     | [] => false)

/-- Result of `re.search` of the GOV.UK date pattern (line 74 / 129). -/
def dateSearch (t : List Char) : Bool :=
  scanAny dateHit t

/-- One position of `\s-\s`: whitespace, hyphen, whitespace. -/
def hyphenHit (_ : Option Char) (t : List Char) : Bool :=
  match t with
  | a :: b :: c :: _ => isPySpace a && (b == '-') && isPySpace c
  | _ => false

/-- Result of `re.search(r"\s-\s", text) is not None` (line 76 / 131).  Note the class is
`\s`, not a literal space. -/
def hyphenSearch (t : List Char) : Bool :=
  scanAny hyphenHit t

/-- The only runtime error the evaluator can raise: `bp.strip()[0]` on line 23
when `bp` is non-empty but strips to the empty string. -/
inductive PyErr where
  | indexError
deriving DecidableEq, Repr

/-- A reported finding.  The source appends formatted strings; each constructor
corresponds to one `findings.append(...)` template (the templates have pairwise
distinct fixed prefixes, so the string form determines the constructor and
payload).  `renderFinding` below gives the exact source text. -/
inductive Finding where
  | bulletNoFullStop (snippet : String)
  | bulletNoCapital (snippet : String)
  | bulletNoLeadIn
  | langPlease
  | langNegContraction (snippet : String)
  | langDirectional (word : String)
  | langLongSentence (snippet : String)
  | linkOneWord (snippet : String)
  | linkNotDescriptive (snippet : String)
  | imageNoAlt
  | imageNotDescribed (alt : String)
  | tableEmptyCell
  | formatBoldItalic (snippet : String)
  | acronymNotSpelledOut (acr : String)
  | styleNoDate
  | styleHyphen
  | styleSlash
  | styleLinkInTable
  | styleTitleNotActive (snippet : String)
deriving DecidableEq, Repr

/-- The exact message the source formats for each finding (`\x27` is the ASCII
apostrophe used as a quote in the f-strings). -/
def renderFinding : Finding → String
  | .bulletNoFullStop s => "BULLET: Does not end with a full stop: \x27" ++ s ++ "\x27"
  | .bulletNoCapital s => "BULLET: Does not begin with a capital letter: \x27" ++ s ++ "\x27"
  | .bulletNoLeadIn => "BULLET: List may be missing a lead-in sentence."
  | .langPlease => "LANGUAGE: Found instance of the word \x27please\x27."
  | .langNegContraction s => "LANGUAGE: Found negative contraction: \x27" ++ s ++ "\x27"
  | .langDirectional w => "LANGUAGE: Found use of the word \x27" ++ w ++ "\x27."
  | .langLongSentence s => "LANGUAGE: Long sentence (>26 words): \x27" ++ s ++ "\x27"
  | .linkOneWord s => "LINK: Link text is only one word: \x27" ++ s ++ "\x27"
  | .linkNotDescriptive s => "LINK: Link text may not be descriptive or active: \x27" ++ s ++ "\x27"
  | .imageNoAlt => "IMAGE: Image found without alt text."
  | .imageNotDescribed a => "IMAGE: Alt text not described in body: \x27" ++ a ++ "\x27"
  | .tableEmptyCell => "TABLE: Empty table cell found. Should be marked as \x27no data\x27 or \x27not applicable\x27."
  | .formatBoldItalic s => "FORMAT: Use of bold/italic text: \x27" ++ s ++ "\x27"
  | .acronymNotSpelledOut a => "ACRONYM: \x27" ++ a ++ "\x27 may not be spelled out on first use."
  | .styleNoDate => "STYLE: No date found in GOV.UK format (e.g., \x2721 September 2025\x27)."
  | .styleHyphen => "STYLE: Hyphen used where em dash may be appropriate."
  | .styleSlash => "STYLE: Slash \x27/\x27 found in text."
  | .styleLinkInTable => "STYLE: Link found inside a table."
  | .styleTitleNotActive s => "STYLE: Title may not use active language: \x27" ++ s ++ "\x27"

/-- An `h1`/`h2`/`h3` element: the evaluator reads `get_text()` for the verb
test and `get_text(strip=True)` for the message (lines 85-86). -/
structure HtmlHeading where
  text : String
  textStripped : String
deriving DecidableEq, Repr

/-- The parsed markup document, as observed by `check_html`: the values the
evaluator reads from BeautifulSoup, in document order (parsing itself is an
external collaborator, spec §1). -/
structure HtmlDoc where
  /-- Value of `soup.get_text(separator="\n")`. -/
  text : String
  /-- Values of `li.get_text()` for each list item. -/
  listItems : List String
  /-- Values of `ul.find_previous(string=True)` for each unordered list. -/
  ulPrevStrings : List (Option String)
  /-- Values of `a.get_text()` for each anchor. -/
  anchors : List String
  /-- Values of `img.get("alt")` for each image (`none` when the attribute is absent). -/
  imageAlts : List (Option String)
  /-- Values of `td.get_text(strip=True)` for each table cell. -/
  tdTexts : List String
  /-- Values of `tag.get_text(strip=True)` for each `b`/`strong`/`i`/`em` element. -/
  emphTexts : List String
  /-- whether `table.find("a")` is truthy, for each table. -/
  tableHasLink : List Bool
  /-- the `h1`/`h2`/`h3` elements. -/
  headings : List HtmlHeading
deriving DecidableEq, Repr

/-- Lines 20-24 for one list item `bp`: the full-stop check, then the Python test
`if bp and not bp.strip()[0].isupper()`; indexing `bp.strip()[0]` raises
`IndexError` when `bp` is truthy but strips to empty. -/
def bulletOne (bp : String) : Except PyErr (List Finding) :=
  let s := pystrip bp.data
  let f1 : List Finding :=
    if endsWithChar '.' s then [] else [Finding.bulletNoFullStop ⟨s⟩]
  if bp.data.isEmpty then Except.ok f1
  else
    match s with
    | [] => Except.error PyErr.indexError
    | c :: _ =>
      Except.ok (f1 ++ (if isAsciiUpper c then [] else [Finding.bulletNoCapital ⟨s⟩]))

/-- The bullet loop of lines 19-24 over all list items. -/
def bulletStage : List String → Except PyErr (List Finding)
  | [] => Except.ok []
  | bp :: rest =>
    match bulletOne bp with
    | Except.error e => Except.error e
    | Except.ok fs =>
      match bulletStage rest with
      | Except.error e => Except.error e
      | Except.ok fs2 => Except.ok (fs ++ fs2)

/-- Lines 26-29 for one `ul`: `if not prev or not prev.strip().endswith(":")`
(an absent previous string and an empty one are both falsy). -/
def leadInOne : Option String → List Finding
  | none => [Finding.bulletNoLeadIn]
  | some s =>
    if s.data.isEmpty then [Finding.bulletNoLeadIn]
    else if endsWithChar ':' (pystrip s.data) then []
    else [Finding.bulletNoLeadIn]

def leadStage (uls : List (Option String)) : List Finding :=
  uls.flatMap leadInOne

/-- Lines 31-32: one finding per document if `please` occurs. -/
def pleaseStage (t : List Char) : List Finding :=
  if pleaseFound t then [Finding.langPlease] else []

/-- Lines 34-36: one finding per `findall` match, carrying the matched slice. -/
def negContrStage (t : List Char) : List Finding :=
  (negContrFindall t).map (fun m => Finding.langNegContraction ⟨m⟩)

def dirWords : List String := ["above", "below"]

/-- Lines 38-40: one finding per directional word present. -/
def dirStage (t : List Char) : List Finding :=
  dirWords.flatMap (fun w => if wordFoundCI w t then [Finding.langDirectional w] else [])

/-- Lines 42-45: split into sentences and flag those longer than 26 words. -/
def sentStage (t : List Char) : List Finding :=
  (sentSplit t).flatMap (fun s =>
    if 26 < (pysplitWs s).length then [Finding.langLongSentence ⟨pystrip s⟩] else [])

/-- Lines 47-52 for one anchor: the single-word check and the active-verb
check, independently. -/
def linkOne (a : String) : List Finding :=
  let lt := pystrip a.data
  (if (pysplitWs lt).length == 1 then [Finding.linkOneWord ⟨lt⟩] else []) ++
  (if hasActiveVerb lt then [] else [Finding.linkNotDescriptive ⟨lt⟩])

def linkStage (anchors : List String) : List Finding :=
  anchors.flatMap linkOne

/-- Lines 54-60 for one image: `alt_text = img.get("alt", "")`, then
`if not alt_text` and `if alt_text and alt_text not in text`. -/
def imgOne (t : List Char) (alt : Option String) : List Finding :=
  let altText : List Char :=
    match alt with
    | some s => s.data
    | none => []
  (if altText.isEmpty then [Finding.imageNoAlt] else []) ++
  (if !altText.isEmpty && !containsSub altText t then
    [Finding.imageNotDescribed ⟨altText⟩]
  else [])

def imgStage (alts : List (Option String)) (t : List Char) : List Finding :=
  alts.flatMap (imgOne t)

/-- Lines 62-64: flag each empty table cell. -/
def tdStage (tds : List String) : List Finding :=
  tds.flatMap (fun s => if s.data.isEmpty then [Finding.tableEmptyCell] else [])

/-- Lines 66-67: one finding per emphasis element, unconditionally. -/
def emphStage (texts : List String) : List Finding :=
  texts.map Finding.formatBoldItalic

/-- Lines 70-72 for one deduplicated acronym. -/
def acroOne (t : List Char) (a : List Char) : List Finding :=
  if expansionSearch a t then [] else [Finding.acronymNotSpelledOut ⟨a⟩]

/-- Lines 69-72: collect acronyms, deduplicate, flag the unexpanded ones. -/
def acroStage (t : List Char) : List Finding :=
  (dedupFirst (acronymTokens t)).flatMap (acroOne t)

/-- Lines 74-75: one finding if no GOV.UK-format date is present. -/
def dateStage (t : List Char) : List Finding :=
  if dateSearch t then [] else [Finding.styleNoDate]

/-- Lines 76-77: one finding if `\s-\s` matches. -/
def hyphenStage (t : List Char) : List Finding :=
  if hyphenSearch t then [Finding.styleHyphen] else []

/-- Lines 78-79: one finding if a slash occurs. -/
def slashStage (t : List Char) : List Finding :=
  if t.contains '/' then [Finding.styleSlash] else []

/-- Lines 80-82: one finding per table containing an anchor. -/
def tblStage (tables : List Bool) : List Finding :=
  tables.flatMap (fun hasLink => if hasLink then [Finding.styleLinkInTable] else [])

/-- Lines 83-86: one finding per heading without an active verb. -/
def headStage (hs : List HtmlHeading) : List Finding :=
  hs.flatMap (fun h =>
    if hasActiveVerb h.text.data then [] else [Finding.styleTitleNotActive h.textStripped])

/-- All checks after the bullet loop, in source order (lines 26-86). -/
def htmlRest (doc : HtmlDoc) : List Finding :=
  leadStage doc.ulPrevStrings ++
  pleaseStage doc.text.data ++
  negContrStage doc.text.data ++
  dirStage doc.text.data ++
  sentStage doc.text.data ++
  linkStage doc.anchors ++
  imgStage doc.imageAlts doc.text.data ++
  tdStage doc.tdTexts ++
  emphStage doc.emphTexts ++
  acroStage doc.text.data ++
  dateStage doc.text.data ++
  hyphenStage doc.text.data ++
  slashStage doc.text.data ++
  tblStage doc.tableHasLink ++
  headStage doc.headings

/-- Function `check_html` (lines 13-88): the bullet loop may raise `IndexError`, which
aborts the whole call; otherwise the findings of all checks in source order. -/
def check_html (doc : HtmlDoc) : Except PyErr (List Finding) :=
  match bulletStage doc.listItems with
  | Except.error e => Except.error e
  | Except.ok bf => Except.ok (bf ++ htmlRest doc)

/-- One run of a word-processor paragraph (`python-docx`): bold/italic flags
and text (`run.bold or run.italic` truthiness is modelled by `Bool`). -/
structure DocxRun where
  bold : Bool
  italic : Bool
  text : String
deriving DecidableEq, Repr

/-- One paragraph: style name, full text, and runs. -/
structure DocxPara where
  styleName : String
  text : String
  runs : List DocxRun
deriving DecidableEq, Repr

/-- The parsed word-processor document, as observed by `check_docx`. -/
structure DocxDoc where
  paragraphs : List DocxPara
deriving DecidableEq, Repr

/-- Line 93: `"\n".join([p.text for p in doc.paragraphs])`. -/
def docxText (d : DocxDoc) : String :=
  String.intercalate ("\n") (d.paragraphs.map (fun p => p.text))

/-- Lines 95-101 for one paragraph: bullet checks on `List`-styled paragraphs;
here `bp` is already stripped, so `bp[0]` is guarded by `if bp` and total. -/
def docxBulletOne (p : DocxPara) : List Finding :=
  if p.styleName.startsWith ("List") then
    let bp := pystrip p.text.data
    (if endsWithChar '.' bp then [] else [Finding.bulletNoFullStop ⟨bp⟩]) ++
    (match bp with
     | [] => []
     | c :: _ => if isAsciiUpper c then [] else [Finding.bulletNoCapital ⟨bp⟩])
  else []

def docxBulletStage (ps : List DocxPara) : List Finding :=
  ps.flatMap docxBulletOne

/-- Lines 119-122: one finding per bold-or-italic run, naming its stripped
text. -/
def docxEmphStage (ps : List DocxPara) : List Finding :=
  ps.flatMap (fun p =>
    p.runs.flatMap (fun r =>
      if r.bold || r.italic then [Finding.formatBoldItalic ⟨pystrip r.text.data⟩] else []))

/-- Function `check_docx` (lines 90-136), total: all checks in source order. -/
def check_docx (d : DocxDoc) : List Finding :=
  docxBulletStage d.paragraphs ++
  pleaseStage (docxText d).data ++
  negContrStage (docxText d).data ++
  dirStage (docxText d).data ++
  sentStage (docxText d).data ++
  docxEmphStage d.paragraphs ++
  acroStage (docxText d).data ++
  dateStage (docxText d).data ++
  hyphenStage (docxText d).data ++
  slashStage (docxText d).data

/-! ## Finding tags

`ftag` assigns each `Finding` constructor a numeric tag (ignoring payloads);
each evaluation stage only emits findings with its own tags, which lets the
claims isolate the contribution of one stage inside the concatenated output. -/

def ftag : Finding → Nat
  | .bulletNoFullStop _ => 0
  | .bulletNoCapital _ => 1
  | .bulletNoLeadIn => 2
  | .langPlease => 3
  | .langNegContraction _ => 4
  | .langDirectional _ => 5
  | .langLongSentence _ => 6
  | .linkOneWord _ => 7
  | .linkNotDescriptive _ => 8
  | .imageNoAlt => 9
  | .imageNotDescribed _ => 10
  | .tableEmptyCell => 11
  | .formatBoldItalic _ => 12
  | .acronymNotSpelledOut _ => 13
  | .styleNoDate => 14
  | .styleHyphen => 15
  | .styleSlash => 16
  | .styleLinkInTable => 17
  | .styleTitleNotActive _ => 18

/-- Recognizer for LANGUAGE negative-contraction findings. -/
def isNegContrFinding : Finding → Bool
  | .langNegContraction _ => true
  | _ => false

/-- Recognizer for IMAGE findings (both kinds). -/
def isImageFinding : Finding → Bool
  | .imageNoAlt => true
  | .imageNotDescribed _ => true
  | _ => false

/-- Recognizer for LINK findings (both kinds). -/
def isLinkFinding : Finding → Bool
  | .linkOneWord _ => true
  | .linkNotDescriptive _ => true
  | _ => false

/-- The image rule as the spec states it, in three cases: absent-or-empty alt,
alt present in the body text, alt absent from the body text.  Compared against
the `imgOne` of the source (two independent `if` statements) below. -/
def imgAltSpec (t : List Char) (alt : Option String) : List Finding :=
  let altText : List Char :=
    match alt with
    | some s => s.data
    | none => []
  if altText.isEmpty then [Finding.imageNoAlt]
  else if containsSub altText t then []
  else [Finding.imageNotDescribed ⟨altText⟩]

/-- Function `check_html` with the document state made explicit: every statement of the
Python body either reads the parsed tree / extracted text (`get_text`,
`find_all`, `find_previous`, `get`, `re.*`) or appends to the local `findings`
list, so the translation threads the document through unchanged and returns it
with the findings. -/
def check_html_framed (doc : HtmlDoc) : Except PyErr (HtmlDoc × List Finding) :=
  match bulletStage doc.listItems with
  | Except.error e => Except.error e
  | Except.ok bf => Except.ok (doc, bf ++ htmlRest doc)

/-- Function `check_docx` with the document state made explicit (same convention). -/
def check_docx_framed (d : DocxDoc) : DocxDoc × List Finding :=
  (d, check_docx d)

/-- The extension part of `os.path.splitext`, last step: the suffix from the
last dot, once leading dots of the basename have been set aside. -/
def lastDotSuffix (l : List Char) : List Char :=
  if l.contains '.' then '.' :: ((l.reverse.takeWhile (fun c => c != '.')).reverse) else []

/-- Model of `os.path.splitext(p)[1]` on the character list: take the final path
component, ignore its leading dots, and return the suffix from the last
remaining dot (empty if none). -/
def splitextExtL (p : List Char) : List Char :=
  lastDotSuffix (((p.reverse.takeWhile (fun c => c != '/')).reverse).dropWhile (fun c => c == '.'))

/-- Model of `os.path.splitext(file_path)[1]` (line 146). -/
def splitextExt (p : String) : String :=
  ⟨splitextExtL p.data⟩

/-- Python `str.lower()` at ASCII precision. -/
def lowerStr (s : String) : String :=
  ⟨s.data.map Char.toLower⟩

/-- The environment `main` observes: `sys.argv`, `os.path.isfile`, and the
document loaders (BeautifulSoup / python-docx applied to the file contents). -/
structure Env where
  argv : List String
  isFile : String → Bool
  loadHtml : String → HtmlDoc
  loadDocx : String → DocxDoc

/-- What one invocation of `main` does: each message constructor corresponds to
exactly one `print(...); return` site that produces no findings, `report` is
the findings path (lines 154-157), and `uncaught` is a propagated evaluator
exception. -/
inductive MainOut where
  | usageMsg
  | fileNotFoundMsg
  | unsupportedMsg
  | report (findings : List Finding)
  | uncaught (e : PyErr)
deriving DecidableEq, Repr

/-- Lines 143-157: the `isfile` test, then extension dispatch. -/
def runPath (env : Env) (fp : String) : MainOut :=
  if env.isFile fp = true then
    let ext := lowerStr (splitextExt fp)
    if ext = (".htm") ∨ ext = (".html") then
      match check_html (env.loadHtml fp) with
      | Except.ok fs => MainOut.report fs
      | Except.error e => MainOut.uncaught e
    else if ext = (".docx") then MainOut.report (check_docx (env.loadDocx fp))
    else MainOut.unsupportedMsg
  else MainOut.fileNotFoundMsg

/-- Function `main` (lines 138-157): usage check on `argv`, then `runPath`.  (Named
`main_entry` because Lean reserves `main` for executables.) -/
def main_entry (env : Env) : MainOut :=
  match env.argv with
  | [_, fp] => runPath env fp
  | _ => MainOut.usageMsg

/-- An HTML document with the given extracted text and no elements. -/
def emptyHtml (t : String) : HtmlDoc :=
  { text := t, listItems := [], ulPrevStrings := [], anchors := [], imageAlts := [],
    tdTexts := [], emphTexts := [], tableHasLink := [], headings := [] }

/-- The end-to-end document of claim C1, as BeautifulSoup presents the markup
`<p>Published 21 September 2025</p><ul><li>buy milk</li></ul><img/><p>please</p>`:
one list item "buy milk" (no period, lower-case), a `ul` whose nearest
preceding text node is the date line (not colon-terminated), one image with no
`alt`, and one occurrence of "please".  The date line is required: without a
GOV.UK-format date somewhere, the date rule (lines 74-75) would also fire. -/
def c1doc : HtmlDoc :=
  { text := "Published 21 September 2025\nbuy milk\nplease",
    listItems := ["buy milk"],
    ulPrevStrings := [some "Published 21 September 2025"],
    anchors := [], imageAlts := [none], tdTexts := [], emphTexts := [],
    tableHasLink := [], headings := [] }

/-- The expected findings for C1, in source order. -/
def c1out : List Finding :=
  [Finding.bulletNoFullStop ("buy milk"), Finding.bulletNoCapital ("buy milk"),
   Finding.bulletNoLeadIn, Finding.langPlease, Finding.imageNoAlt]

/-- C2 counterexample document: the substring "NHS (" occurs, but the regex
`\bNHS \([^)]+\)` has no match (no closing parenthesis). -/
def c2doc : HtmlDoc := emptyHtml "NHS NHS ("

def c2out : List Finding :=
  [Finding.acronymNotSpelledOut ("NHS"), Finding.styleNoDate]

/-- C3 witness document: two typographic-apostrophe contractions. -/
def c3doc : HtmlDoc := emptyHtml "isn’t and isn’t"

def c3out : List Finding :=
  [Finding.langNegContraction ("isn’t"), Finding.langNegContraction ("isn’t"),
   Finding.styleNoDate]

/-- C4 counterexample document: a hyphen surrounded by tabs, not spaces. -/
def c4doc : HtmlDoc := emptyHtml "a\t-\tb"

def c4out : List Finding :=
  [Finding.styleNoDate, Finding.styleHyphen]

/-- C5 witness document: one list item that is non-empty but all whitespace. -/
def c5doc : HtmlDoc :=
  { text := "x", listItems := [" "], ulPrevStrings := [], anchors := [], imageAlts := [],
    tdTexts := [], emphTexts := [], tableHasLink := [], headings := [] }

/-- C6 witness document: one image without `alt`, one whose alt occurs in the
body text, one whose alt does not. -/
def c6doc : HtmlDoc :=
  { text := "Annual report 21 May 2024",
    listItems := [], ulPrevStrings := [], anchors := [],
    imageAlts := [none, some "Annual report", some "Q3 chart"],
    tdTexts := [], emphTexts := [], tableHasLink := [], headings := [] }

def c6out : List Finding :=
  [Finding.imageNoAlt, Finding.imageNotDescribed ("Q3 chart")]

/-- C7 witness document: the three anchors of the example in the spec. -/
def c7doc : HtmlDoc :=
  { text := "Read the report 21 May 2024",
    listItems := [], ulPrevStrings := [],
    anchors := ["Click", "more information here", "Read the report"],
    imageAlts := [], tdTexts := [], emphTexts := [], tableHasLink := [], headings := [] }

def c7out : List Finding :=
  [Finding.linkOneWord ("Click"), Finding.linkNotDescriptive ("Click"),
   Finding.linkNotDescriptive ("more information here")]

/-- C8/C9 witness document. -/
def c8doc : HtmlDoc := emptyHtml "please read this by 3 May 2024"

def c8out : List Finding := [Finding.langPlease]

def c9doc : HtmlDoc := emptyHtml "don’t go"

def c9out : List Finding :=
  [Finding.langNegContraction ("don’t"), Finding.styleNoDate]

def c9docx : DocxDoc :=
  { paragraphs := [{ styleName := "Normal", text := "don’t go", runs := [] }] }

/-- C10 witness environments: an existing file with an unsupported extension,
and a missing file. -/
def env10a : Env :=
  { argv := ["govuk_checker.py", "notes.txt"], isFile := fun _ => true,
    loadHtml := fun _ => emptyHtml "", loadDocx := fun _ => { paragraphs := [] } }

def env10b : Env :=
  { argv := ["govuk_checker.py", "missing.html"], isFile := fun _ => false,
    loadHtml := fun _ => emptyHtml "", loadDocx := fun _ => { paragraphs := [] } }

theorem filter_nil_of_tags {ks : List Nat} {m : Nat} {l : List Finding} {p : Finding → Bool}
    (hl : ∀ f ∈ l, ftag f ∈ ks) (hp : ∀ f, p f = true → ftag f = m) (hm : m ∉ ks) :
    l.filter p = [] := by
  rw [List.filter_eq_nil_iff]
  intro a ha hpa
  exact hm (hp a hpa ▸ hl a ha)

theorem count_nil_of_tags {ks : List Nat} {l : List Finding} {a : Finding}
    (hl : ∀ f ∈ l, ftag f ∈ ks) (hm : ftag a ∉ ks) :
    l.count a = 0 :=
  List.count_eq_zero.mpr (fun hmem => hm (hl a hmem))

theorem bulletOne_tags (bp : String) (fs : List Finding) (h : bulletOne bp = Except.ok fs) :
    ∀ f ∈ fs, ftag f ∈ [0, 1] := by
  intro f hf
  unfold bulletOne at h
  simp only [] at h
  split at h
  · cases h
    split at hf <;> simp_all [ftag]
  · split at h
    · cases h
    · cases h
      rcases List.mem_append.mp hf with h1 | h1
      · split at h1 <;> simp_all [ftag]
      · split at h1 <;> simp_all [ftag]

theorem bulletStage_tags (l : List String) (fs : List Finding)
    (h : bulletStage l = Except.ok fs) : ∀ f ∈ fs, ftag f ∈ [0, 1] := by
  induction l generalizing fs with
  | nil =>
    unfold bulletStage at h
    cases h
    intro f hf
    cases hf
  | cons bp rest ih =>
    unfold bulletStage at h
    split at h
    · cases h
    · rename_i fs1 h1
      split at h
      · cases h
      · rename_i fs2 h2
        cases h
        intro f hf
        rcases List.mem_append.mp hf with hm | hm
        · exact bulletOne_tags bp fs1 h1 f hm
        · exact ih fs2 h2 f hm

theorem leadStage_tags (uls : List (Option String)) : ∀ f ∈ leadStage uls, ftag f ∈ [2] := by
  intro f hf
  rcases List.mem_flatMap.mp hf with ⟨x, _, hx⟩
  unfold leadInOne at hx
  split at hx
  · simp_all [ftag]
  · split at hx
    · simp_all [ftag]
    · split at hx <;> simp_all [ftag]

theorem pleaseStage_tags (t : List Char) : ∀ f ∈ pleaseStage t, ftag f ∈ [3] := by
  intro f hf
  unfold pleaseStage at hf
  split at hf <;> simp_all [ftag]

theorem negContrStage_tags (t : List Char) : ∀ f ∈ negContrStage t, ftag f ∈ [4] := by
  intro f hf
  rcases List.mem_map.mp hf with ⟨m, _, rfl⟩
  simp [ftag]

theorem dirStage_tags (t : List Char) : ∀ f ∈ dirStage t, ftag f ∈ [5] := by
  intro f hf
  rcases List.mem_flatMap.mp hf with ⟨w, _, hw⟩
  split at hw <;> simp_all [ftag]

theorem sentStage_tags (t : List Char) : ∀ f ∈ sentStage t, ftag f ∈ [6] := by
  intro f hf
  rcases List.mem_flatMap.mp hf with ⟨s, _, hs⟩
  split at hs <;> simp_all [ftag]

theorem linkStage_tags (anchors : List String) : ∀ f ∈ linkStage anchors, ftag f ∈ [7, 8] := by
  intro f hf
  rcases List.mem_flatMap.mp hf with ⟨a, _, ha⟩
  unfold linkOne at ha
  rcases List.mem_append.mp ha with h1 | h1
  · split at h1 <;> simp_all [ftag]
  · split at h1 <;> simp_all [ftag]

theorem imgStage_tags (alts : List (Option String)) (t : List Char) :
    ∀ f ∈ imgStage alts t, ftag f ∈ [9, 10] := by
  intro f hf
  rcases List.mem_flatMap.mp hf with ⟨a, _, ha⟩
  unfold imgOne at ha
  rcases List.mem_append.mp ha with h1 | h1
  · split at h1 <;> simp_all [ftag]
  · split at h1 <;> simp_all [ftag]

theorem tdStage_tags (tds : List String) : ∀ f ∈ tdStage tds, ftag f ∈ [11] := by
  intro f hf
  rcases List.mem_flatMap.mp hf with ⟨s, _, hs⟩
  split at hs <;> simp_all [ftag]

theorem emphStage_tags (texts : List String) : ∀ f ∈ emphStage texts, ftag f ∈ [12] := by
  intro f hf
  rcases List.mem_map.mp hf with ⟨s, _, rfl⟩
  simp [ftag]

theorem acroStage_tags (t : List Char) : ∀ f ∈ acroStage t, ftag f ∈ [13] := by
  intro f hf
  rcases List.mem_flatMap.mp hf with ⟨a, _, ha⟩
  unfold acroOne at ha
  split at ha <;> simp_all [ftag]

theorem dateStage_tags (t : List Char) : ∀ f ∈ dateStage t, ftag f ∈ [14] := by
  intro f hf
  unfold dateStage at hf
  split at hf <;> simp_all [ftag]

theorem hyphenStage_tags (t : List Char) : ∀ f ∈ hyphenStage t, ftag f ∈ [15] := by
  intro f hf
  unfold hyphenStage at hf
  split at hf <;> simp_all [ftag]

theorem slashStage_tags (t : List Char) : ∀ f ∈ slashStage t, ftag f ∈ [16] := by
  intro f hf
  unfold slashStage at hf
  split at hf <;> simp_all [ftag]

theorem tblStage_tags (tables : List Bool) : ∀ f ∈ tblStage tables, ftag f ∈ [17] := by
  intro f hf
  rcases List.mem_flatMap.mp hf with ⟨b, _, hb⟩
  split at hb <;> simp_all [ftag]

theorem headStage_tags (hs : List HtmlHeading) : ∀ f ∈ headStage hs, ftag f ∈ [18] := by
  intro f hf
  rcases List.mem_flatMap.mp hf with ⟨h, _, hh⟩
  split at hh <;> simp_all [ftag]

theorem docxBulletStage_tags (ps : List DocxPara) :
    ∀ f ∈ docxBulletStage ps, ftag f ∈ [0, 1] := by
  intro f hf
  rcases List.mem_flatMap.mp hf with ⟨p, _, hp⟩
  unfold docxBulletOne at hp
  split at hp
  · rcases List.mem_append.mp hp with h1 | h1
    · split at h1 <;> simp_all [ftag]
    · split at h1
      · cases h1
      · split at h1 <;> simp_all [ftag]
  · cases hp

theorem docxEmphStage_tags (ps : List DocxPara) : ∀ f ∈ docxEmphStage ps, ftag f ∈ [12] := by
  intro f hf
  rcases List.mem_flatMap.mp hf with ⟨p, _, hp⟩
  rcases List.mem_flatMap.mp hp with ⟨r, _, hr⟩
  split at hr <;> simp_all [ftag]

/-- Successful runs of `check_html` decompose into the bullet-stage findings
followed by the remaining stages. -/
theorem check_html_ok {doc : HtmlDoc} {fs : List Finding}
    (h : check_html doc = Except.ok fs) :
    ∃ bf, bulletStage doc.listItems = Except.ok bf ∧ fs = bf ++ htmlRest doc := by
  unfold check_html at h
  split at h
  · cases h
  · rename_i bf hb
    cases h
    exact ⟨bf, hb, rfl⟩

theorem mem_dedupFirstAux (seen : List (List Char)) (l : List (List Char)) (x : List Char) :
    x ∈ dedupFirstAux seen l ↔ (x ∈ l ∧ x ∉ seen) := by
  induction l generalizing seen with
  | nil => simp [dedupFirstAux]
  | cons a rest ih =>
    unfold dedupFirstAux
    split
    · rename_i hseen
      rw [ih]
      constructor
      · exact fun ⟨h1, h2⟩ => ⟨List.mem_cons_of_mem a h1, h2⟩
      · rintro ⟨h1, h2⟩
        rcases List.mem_cons.mp h1 with rfl | h1
        · exact absurd hseen h2
        · exact ⟨h1, h2⟩
    · rename_i hseen
      constructor
      · intro hx
        rcases List.mem_cons.mp hx with rfl | hx
        · exact ⟨List.mem_cons_self x rest, hseen⟩
        · rcases (ih (a :: seen)).mp hx with ⟨h1, h2⟩
          exact ⟨List.mem_cons_of_mem a h1,
            fun hs => h2 (List.mem_cons_of_mem a hs)⟩
      · rintro ⟨h1, h2⟩
        rcases List.mem_cons.mp h1 with rfl | h1
        · exact List.mem_cons_self x _
        · by_cases hxa : x = a
          · subst hxa
            exact List.mem_cons_self x _
          · exact List.mem_cons_of_mem a ((ih (a :: seen)).mpr
              ⟨h1, fun hs => (List.mem_cons.mp hs).elim hxa h2⟩)

theorem nodup_dedupFirstAux (seen : List (List Char)) (l : List (List Char)) :
    (dedupFirstAux seen l).Nodup := by
  induction l generalizing seen with
  | nil => exact List.nodup_nil
  | cons a rest ih =>
    unfold dedupFirstAux
    split
    · exact ih seen
    · refine List.nodup_cons.mpr ⟨?_, ih (a :: seen)⟩
      intro hmem
      exact ((mem_dedupFirstAux _ _ _).mp hmem).2 (List.mem_cons_self a seen)

theorem mem_dedupFirst (l : List (List Char)) (x : List Char) :
    x ∈ dedupFirst l ↔ x ∈ l := by
  unfold dedupFirst
  rw [mem_dedupFirstAux]
  simp

theorem nodup_dedupFirst (l : List (List Char)) : (dedupFirst l).Nodup :=
  nodup_dedupFirstAux [] l

theorem acro_flatMap_count_notmem (t : List Char) (u : List (List Char)) (tok : List Char)
    (h : tok ∉ u) :
    (u.flatMap (acroOne t)).count (Finding.acronymNotSpelledOut ⟨tok⟩) = 0 := by
  induction u with
  | nil => rfl
  | cons a rest ih =>
    have hne : tok ≠ a := fun he => h (he ▸ List.mem_cons_self a rest)
    have hrest : tok ∉ rest := fun hm => h (List.mem_cons_of_mem a hm)
    rw [List.flatMap_cons, List.count_append, ih hrest]
    unfold acroOne
    split
    · rfl
    · rw [Nat.add_zero]
      have hs : (⟨tok⟩ : String) ≠ ⟨a⟩ := fun he => hne (congrArg String.data he)
      simp [List.count_cons, hs, Ne.symm hs]

theorem acro_flatMap_count_mem (t : List Char) (u : List (List Char)) (tok : List Char)
    (hu : u.Nodup) (h : tok ∈ u) :
    (u.flatMap (acroOne t)).count (Finding.acronymNotSpelledOut ⟨tok⟩) =
      (if expansionSearch tok t = true then 0 else 1) := by
  induction u with
  | nil => cases h
  | cons a rest ih =>
    rw [List.flatMap_cons, List.count_append]
    rcases List.mem_cons.mp h with rfl | hmem
    · have hnotin : tok ∉ rest := (List.nodup_cons.mp hu).1
      rw [acro_flatMap_count_notmem t rest tok hnotin, Nat.add_zero]
      unfold acroOne
      split
      · rfl
      · simp
    · have hne : Finding.acronymNotSpelledOut (⟨tok⟩ : String) ≠ Finding.acronymNotSpelledOut ⟨a⟩ := by
        intro he
        have : tok = a := congrArg String.data (by injection he)
        exact (List.nodup_cons.mp hu).1 (this ▸ hmem)
      have hcnt : (acroOne t a).count (Finding.acronymNotSpelledOut ⟨tok⟩) = 0 := by
        unfold acroOne
        split
        · rfl
        · simp [List.count_cons, hne]
      rw [hcnt, Nat.zero_add]
      exact ih (List.nodup_cons.mp hu).2 hmem

/-- The acronym stage emits the finding for a collected token exactly once
when the expansion pattern is absent, and not at all when it is present. -/
theorem acroStage_count (t : List Char) (tok : List Char) (h : tok ∈ acronymTokens t) :
    (acroStage t).count (Finding.acronymNotSpelledOut ⟨tok⟩) =
      (if expansionSearch tok t = true then 0 else 1) := by
  unfold acroStage
  exact acro_flatMap_count_mem t _ tok (nodup_dedupFirst _)
    ((mem_dedupFirst _ tok).mpr h)

theorem isNegContrFinding_tag : ∀ f, isNegContrFinding f = true → ftag f = 4 := by
  intro f
  cases f <;> simp [isNegContrFinding, ftag]

theorem negContrStage_filter_self (t : List Char) :
    (negContrStage t).filter isNegContrFinding = negContrStage t := by
  refine List.filter_eq_self.mpr ?_
  intro a ha
  rcases List.mem_map.mp ha with ⟨m, _, rfl⟩
  rfl

/-- In a successful `check_html` run, the LANGUAGE negative-contraction
findings are exactly the output of the negative-contraction stage. -/
theorem check_html_filter_neg {doc : HtmlDoc} {fs : List Finding}
    (h : check_html doc = Except.ok fs) :
    fs.filter isNegContrFinding = negContrStage doc.text.data := by
  obtain ⟨bf, hb, rfl⟩ := check_html_ok h
  unfold htmlRest
  simp only [List.filter_append]
  rw [filter_nil_of_tags (bulletStage_tags _ _ hb) isNegContrFinding_tag (by decide),
    filter_nil_of_tags (leadStage_tags _) isNegContrFinding_tag (by decide),
    filter_nil_of_tags (pleaseStage_tags _) isNegContrFinding_tag (by decide),
    filter_nil_of_tags (dirStage_tags _) isNegContrFinding_tag (by decide),
    filter_nil_of_tags (sentStage_tags _) isNegContrFinding_tag (by decide),
    filter_nil_of_tags (linkStage_tags _) isNegContrFinding_tag (by decide),
    filter_nil_of_tags (imgStage_tags _ _) isNegContrFinding_tag (by decide),
    filter_nil_of_tags (tdStage_tags _) isNegContrFinding_tag (by decide),
    filter_nil_of_tags (emphStage_tags _) isNegContrFinding_tag (by decide),
    filter_nil_of_tags (acroStage_tags _) isNegContrFinding_tag (by decide),
    filter_nil_of_tags (dateStage_tags _) isNegContrFinding_tag (by decide),
    filter_nil_of_tags (hyphenStage_tags _) isNegContrFinding_tag (by decide),
    filter_nil_of_tags (slashStage_tags _) isNegContrFinding_tag (by decide),
    filter_nil_of_tags (tblStage_tags _) isNegContrFinding_tag (by decide),
    filter_nil_of_tags (headStage_tags _) isNegContrFinding_tag (by decide),
    negContrStage_filter_self]
  simp

/-- Likewise for `check_docx`. -/
theorem check_docx_filter_neg (d : DocxDoc) :
    (check_docx d).filter isNegContrFinding = negContrStage (docxText d).data := by
  unfold check_docx
  simp only [List.filter_append]
  rw [filter_nil_of_tags (docxBulletStage_tags _) isNegContrFinding_tag (by decide),
    filter_nil_of_tags (pleaseStage_tags _) isNegContrFinding_tag (by decide),
    filter_nil_of_tags (dirStage_tags _) isNegContrFinding_tag (by decide),
    filter_nil_of_tags (sentStage_tags _) isNegContrFinding_tag (by decide),
    filter_nil_of_tags (docxEmphStage_tags _) isNegContrFinding_tag (by decide),
    filter_nil_of_tags (acroStage_tags _) isNegContrFinding_tag (by decide),
    filter_nil_of_tags (dateStage_tags _) isNegContrFinding_tag (by decide),
    filter_nil_of_tags (hyphenStage_tags _) isNegContrFinding_tag (by decide),
    filter_nil_of_tags (slashStage_tags _) isNegContrFinding_tag (by decide),
    negContrStage_filter_self]
  simp

/-- In a successful `check_html` run, the count of an acronym finding is
decided entirely by the acronym stage. -/
theorem check_html_count_acro {doc : HtmlDoc} {fs : List Finding} (tok : List Char)
    (h : check_html doc = Except.ok fs) (htok : tok ∈ acronymTokens doc.text.data) :
    fs.count (Finding.acronymNotSpelledOut ⟨tok⟩) =
      (if expansionSearch tok doc.text.data = true then 0 else 1) := by
  obtain ⟨bf, hb, rfl⟩ := check_html_ok h
  unfold htmlRest
  simp only [List.count_append]
  rw [count_nil_of_tags (bulletStage_tags _ _ hb) (by simp [ftag]),
    count_nil_of_tags (leadStage_tags _) (by simp [ftag]),
    count_nil_of_tags (pleaseStage_tags _) (by simp [ftag]),
    count_nil_of_tags (negContrStage_tags _) (by simp [ftag]),
    count_nil_of_tags (dirStage_tags _) (by simp [ftag]),
    count_nil_of_tags (sentStage_tags _) (by simp [ftag]),
    count_nil_of_tags (linkStage_tags _) (by simp [ftag]),
    count_nil_of_tags (imgStage_tags _ _) (by simp [ftag]),
    count_nil_of_tags (tdStage_tags _) (by simp [ftag]),
    count_nil_of_tags (emphStage_tags _) (by simp [ftag]),
    count_nil_of_tags (dateStage_tags _) (by simp [ftag]),
    count_nil_of_tags (hyphenStage_tags _) (by simp [ftag]),
    count_nil_of_tags (slashStage_tags _) (by simp [ftag]),
    count_nil_of_tags (tblStage_tags _) (by simp [ftag]),
    count_nil_of_tags (headStage_tags _) (by simp [ftag]),
    acroStage_count _ tok htok]
  simp

/-- Likewise for `check_docx`. -/
theorem check_docx_count_acro (d : DocxDoc) (tok : List Char)
    (htok : tok ∈ acronymTokens (docxText d).data) :
    (check_docx d).count (Finding.acronymNotSpelledOut ⟨tok⟩) =
      (if expansionSearch tok (docxText d).data = true then 0 else 1) := by
  unfold check_docx
  simp only [List.count_append]
  rw [count_nil_of_tags (docxBulletStage_tags _) (by simp [ftag]),
    count_nil_of_tags (pleaseStage_tags _) (by simp [ftag]),
    count_nil_of_tags (negContrStage_tags _) (by simp [ftag]),
    count_nil_of_tags (dirStage_tags _) (by simp [ftag]),
    count_nil_of_tags (sentStage_tags _) (by simp [ftag]),
    count_nil_of_tags (docxEmphStage_tags _) (by simp [ftag]),
    count_nil_of_tags (dateStage_tags _) (by simp [ftag]),
    count_nil_of_tags (hyphenStage_tags _) (by simp [ftag]),
    count_nil_of_tags (slashStage_tags _) (by simp [ftag]),
    acroStage_count _ tok htok]
  simp

theorem hyphenStage_count (t : List Char) :
    (hyphenStage t).count Finding.styleHyphen =
      (if hyphenSearch t = true then 1 else 0) := by
  unfold hyphenStage
  split <;> simp

/-- In a successful `check_html` run, the count of the hyphen finding is
decided entirely by the hyphen stage. -/
theorem check_html_count_hyphen {doc : HtmlDoc} {fs : List Finding}
    (h : check_html doc = Except.ok fs) :
    fs.count Finding.styleHyphen = (if hyphenSearch doc.text.data = true then 1 else 0) := by
  obtain ⟨bf, hb, rfl⟩ := check_html_ok h
  unfold htmlRest
  simp only [List.count_append]
  rw [count_nil_of_tags (bulletStage_tags _ _ hb) (by simp [ftag]),
    count_nil_of_tags (leadStage_tags _) (by simp [ftag]),
    count_nil_of_tags (pleaseStage_tags _) (by simp [ftag]),
    count_nil_of_tags (negContrStage_tags _) (by simp [ftag]),
    count_nil_of_tags (dirStage_tags _) (by simp [ftag]),
    count_nil_of_tags (sentStage_tags _) (by simp [ftag]),
    count_nil_of_tags (linkStage_tags _) (by simp [ftag]),
    count_nil_of_tags (imgStage_tags _ _) (by simp [ftag]),
    count_nil_of_tags (tdStage_tags _) (by simp [ftag]),
    count_nil_of_tags (emphStage_tags _) (by simp [ftag]),
    count_nil_of_tags (acroStage_tags _) (by simp [ftag]),
    count_nil_of_tags (dateStage_tags _) (by simp [ftag]),
    count_nil_of_tags (slashStage_tags _) (by simp [ftag]),
    count_nil_of_tags (tblStage_tags _) (by simp [ftag]),
    count_nil_of_tags (headStage_tags _) (by simp [ftag]),
    hyphenStage_count]
  simp

/-- Likewise for `check_docx`. -/
theorem check_docx_count_hyphen (d : DocxDoc) :
    (check_docx d).count Finding.styleHyphen =
      (if hyphenSearch (docxText d).data = true then 1 else 0) := by
  unfold check_docx
  simp only [List.count_append]
  rw [count_nil_of_tags (docxBulletStage_tags _) (by simp [ftag]),
    count_nil_of_tags (pleaseStage_tags _) (by simp [ftag]),
    count_nil_of_tags (negContrStage_tags _) (by simp [ftag]),
    count_nil_of_tags (dirStage_tags _) (by simp [ftag]),
    count_nil_of_tags (sentStage_tags _) (by simp [ftag]),
    count_nil_of_tags (docxEmphStage_tags _) (by simp [ftag]),
    count_nil_of_tags (acroStage_tags _) (by simp [ftag]),
    count_nil_of_tags (dateStage_tags _) (by simp [ftag]),
    count_nil_of_tags (slashStage_tags _) (by simp [ftag]),
    hyphenStage_count]
  simp

theorem imgOne_eq_spec (t : List Char) (alt : Option String) :
    imgOne t alt = imgAltSpec t alt := by
  unfold imgOne imgAltSpec
  rcases alt with _ | s
  · simp
  · simp only []
    by_cases he : s.data.isEmpty
    · simp [he]
    · by_cases hc : containsSub s.data t
      · simp [he, hc]
      · simp [he, hc]

theorem isImageFinding_tag : ∀ f, isImageFinding f = true → ftag f = 9 ∨ ftag f = 10 := by
  intro f
  cases f <;> simp [isImageFinding, ftag]

theorem isLinkFinding_tag : ∀ f, isLinkFinding f = true → ftag f = 7 ∨ ftag f = 8 := by
  intro f
  cases f <;> simp [isLinkFinding, ftag]

theorem filter_nil_of_tags2 {ks : List Nat} {m1 m2 : Nat} {l : List Finding} {p : Finding → Bool}
    (hl : ∀ f ∈ l, ftag f ∈ ks) (hp : ∀ f, p f = true → ftag f = m1 ∨ ftag f = m2)
    (hm1 : m1 ∉ ks) (hm2 : m2 ∉ ks) :
    l.filter p = [] := by
  rw [List.filter_eq_nil_iff]
  intro a ha hpa
  rcases hp a hpa with he | he
  · exact hm1 (he ▸ hl a ha)
  · exact hm2 (he ▸ hl a ha)

theorem imgStage_filter_self (alts : List (Option String)) (t : List Char) :
    (imgStage alts t).filter isImageFinding = imgStage alts t := by
  refine List.filter_eq_self.mpr ?_
  intro a ha
  rcases List.mem_flatMap.mp ha with ⟨x, _, hx⟩
  unfold imgOne at hx
  rcases List.mem_append.mp hx with h1 | h1
  · split at h1 <;> simp_all [isImageFinding]
  · split at h1 <;> simp_all [isImageFinding]

theorem linkStage_filter_self (anchors : List String) :
    (linkStage anchors).filter isLinkFinding = linkStage anchors := by
  refine List.filter_eq_self.mpr ?_
  intro a ha
  rcases List.mem_flatMap.mp ha with ⟨x, _, hx⟩
  unfold linkOne at hx
  rcases List.mem_append.mp hx with h1 | h1
  · split at h1 <;> simp_all [isLinkFinding]
  · split at h1 <;> simp_all [isLinkFinding]

/-- In a successful `check_html` run, the IMAGE findings are exactly the output of the image
stage. -/
theorem check_html_filter_img {doc : HtmlDoc} {fs : List Finding}
    (h : check_html doc = Except.ok fs) :
    fs.filter isImageFinding = imgStage doc.imageAlts doc.text.data := by
  obtain ⟨bf, hb, rfl⟩ := check_html_ok h
  unfold htmlRest
  simp only [List.filter_append]
  rw [filter_nil_of_tags2 (bulletStage_tags _ _ hb) isImageFinding_tag (by decide) (by decide),
    filter_nil_of_tags2 (leadStage_tags _) isImageFinding_tag (by decide) (by decide),
    filter_nil_of_tags2 (pleaseStage_tags _) isImageFinding_tag (by decide) (by decide),
    filter_nil_of_tags2 (negContrStage_tags _) isImageFinding_tag (by decide) (by decide),
    filter_nil_of_tags2 (dirStage_tags _) isImageFinding_tag (by decide) (by decide),
    filter_nil_of_tags2 (sentStage_tags _) isImageFinding_tag (by decide) (by decide),
    filter_nil_of_tags2 (linkStage_tags _) isImageFinding_tag (by decide) (by decide),
    filter_nil_of_tags2 (tdStage_tags _) isImageFinding_tag (by decide) (by decide),
    filter_nil_of_tags2 (emphStage_tags _) isImageFinding_tag (by decide) (by decide),
    filter_nil_of_tags2 (acroStage_tags _) isImageFinding_tag (by decide) (by decide),
    filter_nil_of_tags2 (dateStage_tags _) isImageFinding_tag (by decide) (by decide),
    filter_nil_of_tags2 (hyphenStage_tags _) isImageFinding_tag (by decide) (by decide),
    filter_nil_of_tags2 (slashStage_tags _) isImageFinding_tag (by decide) (by decide),
    filter_nil_of_tags2 (tblStage_tags _) isImageFinding_tag (by decide) (by decide),
    filter_nil_of_tags2 (headStage_tags _) isImageFinding_tag (by decide) (by decide),
    imgStage_filter_self]
  simp

/-- In a successful `check_html` run, the LINK findings are exactly the output of the link
stage. -/
theorem check_html_filter_link {doc : HtmlDoc} {fs : List Finding}
    (h : check_html doc = Except.ok fs) :
    fs.filter isLinkFinding = linkStage doc.anchors := by
  obtain ⟨bf, hb, rfl⟩ := check_html_ok h
  unfold htmlRest
  simp only [List.filter_append]
  rw [filter_nil_of_tags2 (bulletStage_tags _ _ hb) isLinkFinding_tag (by decide) (by decide),
    filter_nil_of_tags2 (leadStage_tags _) isLinkFinding_tag (by decide) (by decide),
    filter_nil_of_tags2 (pleaseStage_tags _) isLinkFinding_tag (by decide) (by decide),
    filter_nil_of_tags2 (negContrStage_tags _) isLinkFinding_tag (by decide) (by decide),
    filter_nil_of_tags2 (dirStage_tags _) isLinkFinding_tag (by decide) (by decide),
    filter_nil_of_tags2 (sentStage_tags _) isLinkFinding_tag (by decide) (by decide),
    filter_nil_of_tags2 (imgStage_tags _ _) isLinkFinding_tag (by decide) (by decide),
    filter_nil_of_tags2 (tdStage_tags _) isLinkFinding_tag (by decide) (by decide),
    filter_nil_of_tags2 (emphStage_tags _) isLinkFinding_tag (by decide) (by decide),
    filter_nil_of_tags2 (acroStage_tags _) isLinkFinding_tag (by decide) (by decide),
    filter_nil_of_tags2 (dateStage_tags _) isLinkFinding_tag (by decide) (by decide),
    filter_nil_of_tags2 (hyphenStage_tags _) isLinkFinding_tag (by decide) (by decide),
    filter_nil_of_tags2 (slashStage_tags _) isLinkFinding_tag (by decide) (by decide),
    filter_nil_of_tags2 (tblStage_tags _) isLinkFinding_tag (by decide) (by decide),
    filter_nil_of_tags2 (headStage_tags _) isLinkFinding_tag (by decide) (by decide),
    linkStage_filter_self]
  simp

theorem pystrip_all_space (l : List Char) (h : l.all isPySpace = true) : pystrip l = [] := by
  unfold pystrip
  have h1 : l.dropWhile isPySpace = [] :=
    List.dropWhile_eq_nil_iff.mpr (fun x hx => List.all_eq_true.mp h x hx)
  rw [h1]
  rfl

theorem bulletOne_err (bp : String) (hne : ¬ bp.data = []) (hsp : pystrip bp.data = []) :
    bulletOne bp = Except.error PyErr.indexError := by
  unfold bulletOne
  simp only []
  rw [hsp]
  have hf : bp.data.isEmpty = false := by
    cases hd : bp.data
    · exact absurd hd hne
    · rfl
  rw [hf]
  simp

theorem bulletStage_err (l : List String) (bp : String) (hmem : bp ∈ l)
    (hne : ¬ bp.data = []) (hsp : pystrip bp.data = []) :
    bulletStage l = Except.error PyErr.indexError := by
  induction l with
  | nil => cases hmem
  | cons a rest ih =>
    unfold bulletStage
    rcases List.mem_cons.mp hmem with rfl | hmem2
    · rw [bulletOne_err bp hne hsp]
    · cases h1 : bulletOne a with
      | error e =>
        cases e
        rfl
      | ok fs =>
        rw [ih hmem2]

/-! ## Claims -/

/-- C1: for a markup document with exactly one list item "buy milk" (no
trailing period, lower-case first letter) inside an unordered list with no
preceding colon-terminated text node, one image with no alt attribute, and one
occurrence of the word "please" — and nothing else that triggers a rule, which
requires a GOV.UK-format date to be present since its absence triggers the
date rule — `check_html` returns a finding list containing a BULLET full-stop
finding, a BULLET capitalisation finding, a BULLET lead-in finding, an IMAGE
no-alt-text finding and a LANGUAGE "please" finding, and exactly 5 findings. -/
theorem gov_c1_end_to_end :
    check_html c1doc = Except.ok c1out ∧
    Finding.bulletNoFullStop ("buy milk") ∈ c1out ∧
    Finding.bulletNoCapital ("buy milk") ∈ c1out ∧
    Finding.bulletNoLeadIn ∈ c1out ∧
    Finding.imageNoAlt ∈ c1out ∧
    Finding.langPlease ∈ c1out ∧
    c1out.length = 5 := by
  refine ⟨rfl, ?_, ?_, ?_, ?_, ?_, rfl⟩ <;> decide

/-- C2 counterexample: in the document whose extracted text is "NHS NHS (",
the token NHS is followed by a space and an opening parenthesis somewhere in
the text, so the claim as stated says no ACRONYM finding is emitted for it;
the code emits one, because line 71 requires a full parenthetical
`\bNHS \([^)]+\)` (closing parenthesis and non-empty body), which is absent. -/
theorem gov_c2_counterexample :
    check_html c2doc = Except.ok c2out ∧
    ("NHS").data ∈ acronymTokens c2doc.text.data ∧
    containsSub ("NHS (").data c2doc.text.data = true ∧
    Finding.acronymNotSpelledOut ("NHS") ∈ c2out := by
  refine ⟨rfl, ?_, rfl, ?_⟩ <;> decide

/-- C2 (amended): for every distinct all-uppercase token of length at least 2
collected from the Extracted Text, `check_html` (and likewise `check_docx`)
emits exactly one ACRONYM finding for the token if and only if the regex
`\bTOKEN \([^)]+\)` — the token preceded by a word boundary and followed by a
space, an opening parenthesis, one or more non-`)` characters, and a closing
parenthesis — has no match anywhere in the Extracted Text. -/
theorem gov_c2_amended :
    (∀ (doc : HtmlDoc) (fs : List Finding) (tok : List Char),
      check_html doc = Except.ok fs → tok ∈ acronymTokens doc.text.data →
      fs.count (Finding.acronymNotSpelledOut ⟨tok⟩) =
        (if expansionSearch tok doc.text.data = true then 0 else 1)) ∧
    (∀ (d : DocxDoc) (tok : List Char),
      tok ∈ acronymTokens (docxText d).data →
      (check_docx d).count (Finding.acronymNotSpelledOut ⟨tok⟩) =
        (if expansionSearch tok (docxText d).data = true then 0 else 1)) :=
  ⟨fun _ _ tok h htok => check_html_count_acro tok h htok,
   fun d tok htok => check_docx_count_acro d tok htok⟩

theorem gov_c2_witness :
    c2out.count (Finding.acronymNotSpelledOut ⟨("NHS").data⟩) =
      (if expansionSearch ("NHS").data c2doc.text.data = true then 0 else 1) :=
  gov_c2_amended.1 c2doc c2out ("NHS").data rfl (by decide)

/-- C3: the LANGUAGE negative-contraction findings of an evaluation are in
one-to-one, order-preserving correspondence with the occurrences (regex
matches) of the fixed typographic-apostrophe contraction forms in the
Extracted Text — n occurrences yield n findings — for both evaluators; and
concretely, the ASCII-apostrophe spelling yields no occurrence while two
typographic occurrences yield exactly two. -/
theorem gov_c3_neg_contractions :
    (∀ (doc : HtmlDoc) (fs : List Finding), check_html doc = Except.ok fs →
      fs.filter isNegContrFinding =
        (negContrFindall doc.text.data).map (fun m => Finding.langNegContraction ⟨m⟩)) ∧
    (∀ d : DocxDoc,
      (check_docx d).filter isNegContrFinding =
        (negContrFindall (docxText d).data).map (fun m => Finding.langNegContraction ⟨m⟩)) ∧
    negContrFindall ("he isn\x27t here and isn\x27t there").data = [] ∧
    negContrFindall ("he isn’t here and isn’t there").data =
      [("isn’t").data, ("isn’t").data] := by
  refine ⟨?_, ?_, rfl, rfl⟩
  · intro doc fs h
    rw [check_html_filter_neg h]
    rfl
  · intro d
    rw [check_docx_filter_neg d]
    rfl

theorem gov_c3_witness :
    c3out.filter isNegContrFinding =
      (negContrFindall c3doc.text.data).map (fun m => Finding.langNegContraction ⟨m⟩) :=
  gov_c3_neg_contractions.1 c3doc c3out rfl

/-- C4 counterexample: in the document whose extracted text is "a\t-\tb", the
three-character substring space-hyphen-space does not occur, yet the STYLE
hyphen finding is emitted, because line 76 searches for `\s-\s` and tabs match
`\s`. -/
theorem gov_c4_counterexample :
    check_html c4doc = Except.ok c4out ∧
    containsSub (" - ").data c4doc.text.data = false ∧
    Finding.styleHyphen ∈ c4out := by
  refine ⟨rfl, rfl, ?_⟩
  decide

/-- C4 (amended): the evaluator emits the STYLE hyphen finding exactly once if
the Extracted Text contains a hyphen surrounded by whitespace characters (the
regex `\s-\s`: any whitespace, including tabs and newlines, not only plain
spaces), and not at all otherwise — in particular at most once per document —
for both evaluators. -/
theorem gov_c4_amended :
    (∀ (doc : HtmlDoc) (fs : List Finding), check_html doc = Except.ok fs →
      fs.count Finding.styleHyphen = (if hyphenSearch doc.text.data = true then 1 else 0)) ∧
    (∀ d : DocxDoc,
      (check_docx d).count Finding.styleHyphen =
        (if hyphenSearch (docxText d).data = true then 1 else 0)) :=
  ⟨fun _ _ h => check_html_count_hyphen h, check_docx_count_hyphen⟩

theorem gov_c4_witness :
    c4out.count Finding.styleHyphen = (if hyphenSearch c4doc.text.data = true then 1 else 0) :=
  gov_c4_amended.1 c4doc c4out rfl

/-- C5: `check_html` is not total: for any document containing a list-item
element whose text is non-empty but consists only of whitespace characters,
the bullet capitalisation check of line 23 indexes the first character of the
empty stripped string and raises `IndexError` instead of returning a finding
list. -/
theorem gov_c5_whitespace_bullet (doc : HtmlDoc)
    (h : ∃ bp ∈ doc.listItems, ¬ bp.data = [] ∧ bp.data.all isPySpace = true) :
    check_html doc = Except.error PyErr.indexError := by
  obtain ⟨bp, hmem, hne, hall⟩ := h
  unfold check_html
  rw [bulletStage_err doc.listItems bp hmem hne (pystrip_all_space _ hall)]

theorem gov_c5_witness : check_html c5doc = Except.error PyErr.indexError :=
  gov_c5_whitespace_bullet c5doc ⟨" ", by decide, by decide, rfl⟩

/-- C6: for every image element, the IMAGE findings of a successful
`check_html` run are exactly: one "without alt text" finding when the alt
attribute is absent or empty; no finding when the alt is non-empty and occurs
as a substring of the Extracted Text; and one "not described" finding when the
alt is non-empty and does not occur in the Extracted Text. -/
theorem gov_c6_image_alt (doc : HtmlDoc) (fs : List Finding)
    (h : check_html doc = Except.ok fs) :
    fs.filter isImageFinding = doc.imageAlts.flatMap (imgAltSpec doc.text.data) := by
  rw [check_html_filter_img h]
  unfold imgStage
  exact List.flatMap_congr (fun x _ => imgOne_eq_spec doc.text.data x)

theorem gov_c6_witness :
    c6out.filter isImageFinding = c6doc.imageAlts.flatMap (imgAltSpec c6doc.text.data) :=
  gov_c6_image_alt c6doc c6out rfl

/-- C7: the LINK findings of a successful `check_html` run are exactly, per
anchor in order: a single-word finding when the trimmed text splits into
exactly one word, and a descriptiveness finding when the text contains no
word-boundary occurrence of any fixed active verb — the two checks fire
independently and may both fire on the same anchor (witness "Click"), while a
multi-word anchor containing an active verb ("Read the report") produces
neither. -/
theorem gov_c7_link_text :
    (∀ (doc : HtmlDoc) (fs : List Finding), check_html doc = Except.ok fs →
      fs.filter isLinkFinding = doc.anchors.flatMap linkOne) ∧
    (∀ a : String, (pysplitWs (pystrip a.data)).length = 1 →
      Finding.linkOneWord ⟨pystrip a.data⟩ ∈ linkOne a) ∧
    (∀ a : String, hasActiveVerb (pystrip a.data) = false →
      Finding.linkNotDescriptive ⟨pystrip a.data⟩ ∈ linkOne a) ∧
    linkOne ("Read the report") = [] ∧
    linkOne ("Click") =
      [Finding.linkOneWord ("Click"), Finding.linkNotDescriptive ("Click")] ∧
    linkOne ("more information here") =
      [Finding.linkNotDescriptive ("more information here")] := by
  refine ⟨?_, ?_, ?_, rfl, rfl, rfl⟩
  · intro doc fs h
    rw [check_html_filter_link h]
    rfl
  · intro a hlen
    unfold linkOne
    simp only []
    refine List.mem_append.mpr (Or.inl ?_)
    rw [if_pos (beq_iff_eq.mpr hlen)]
    exact List.mem_singleton.mpr rfl
  · intro a hv
    unfold linkOne
    simp only []
    refine List.mem_append.mpr (Or.inr ?_)
    rw [if_neg (by simp [hv])]
    exact List.mem_singleton.mpr rfl

theorem gov_c7_witness :
    c7out.filter isLinkFinding = c7doc.anchors.flatMap linkOne :=
  gov_c7_link_text.1 c7doc c7out rfl

/-- C8: neither evaluator mutates the parsed document or the Extracted Text:
in the state-threaded translation (where the document the Python locals refer
to is returned alongside the findings) the final document equals the initial
one, and the findings are those of the plain evaluator.  This holds because
every statement of both function bodies is either a read of the parsed
document/text or an append to the local findings list. -/
theorem gov_c8_no_mutation :
    (∀ (doc d' : HtmlDoc) (fs : List Finding),
      check_html_framed doc = Except.ok (d', fs) →
      d' = doc ∧ check_html doc = Except.ok fs) ∧
    (∀ d : DocxDoc, (check_docx_framed d).1 = d ∧ (check_docx_framed d).2 = check_docx d) := by
  constructor
  · intro doc d' fs h
    unfold check_html_framed at h
    split at h
    · cases h
    · rename_i bf hb
      injection h with hpair
      injection hpair with h1 h2
      subst h1
      subst h2
      exact ⟨rfl, by unfold check_html; rw [hb]⟩
  · intro d
    exact ⟨rfl, rfl⟩

theorem gov_c8_witness :
    c8doc = c8doc ∧ check_html c8doc = Except.ok c8out :=
  gov_c8_no_mutation.1 c8doc c8doc c8out rfl

/-- C9: the rule evaluator is deterministic — two evaluations of the same
unmodified document produce finding lists that are equal element by element
and in the same order, for both evaluators. -/
theorem gov_c9_determinism :
    (∀ (doc : HtmlDoc) (fs1 fs2 : List Finding),
      check_html doc = Except.ok fs1 → check_html doc = Except.ok fs2 → fs1 = fs2) ∧
    (∀ (d : DocxDoc) (fs1 fs2 : List Finding),
      check_docx d = fs1 → check_docx d = fs2 → fs1 = fs2) := by
  constructor
  · intro doc fs1 fs2 h1 h2
    exact Except.ok.inj (h1.symm.trans h2)
  · intro d fs1 fs2 h1 h2
    exact h1.symm.trans h2

theorem gov_c9_witness : c9out = c9out :=
  gov_c9_determinism.1 c9doc c9out c9out rfl rfl

/-- C10: for every invocation `main(file)` where the path names an existing
file whose extension, lower-cased, is not `.htm`, `.html` or `.docx`, the
program takes the single "unsupported file type" message path and terminates
without evaluating any rule and without producing any finding; and a path that
does not name a file takes the single "File not found." message path, again
with no findings. -/
theorem gov_c10_main_errors :
    (∀ (env : Env) (prog fp : String),
      env.argv = [prog, fp] → env.isFile fp = true →
      ¬ lowerStr (splitextExt fp) = (".htm") →
      ¬ lowerStr (splitextExt fp) = (".html") →
      ¬ lowerStr (splitextExt fp) = (".docx") →
      main_entry env = MainOut.unsupportedMsg) ∧
    (∀ (env : Env) (prog fp : String),
      env.argv = [prog, fp] → env.isFile fp = false →
      main_entry env = MainOut.fileNotFoundMsg) := by
  constructor
  · intro env prog fp hargv hfile h1 h2 h3
    have hm : main_entry env = runPath env fp := by
      unfold main_entry
      rw [hargv]
    rw [hm]
    unfold runPath
    rw [if_pos hfile]
    simp only []
    rw [if_neg (fun hor => Or.elim hor h1 h2), if_neg h3]
  · intro env prog fp hargv hfile
    have hm : main_entry env = runPath env fp := by
      unfold main_entry
      rw [hargv]
    rw [hm]
    unfold runPath
    rw [if_neg (by simp [hfile])]

theorem gov_c10_witness :
    main_entry env10a = MainOut.unsupportedMsg ∧
    main_entry env10b = MainOut.fileNotFoundMsg :=
  ⟨gov_c10_main_errors.1 env10a ("govuk_checker.py") ("notes.txt") rfl rfl
      (by decide) (by decide) (by decide),
   gov_c10_main_errors.2 env10b ("govuk_checker.py") ("missing.html") rfl rfl⟩
